import Mathlib

set_option maxHeartbeats 1000000
set_option maxRecDepth 10000

/-!
Verification development for the click-verify-traverse core of the crawler.

The embedding is shallow: each Python function of the repository is translated
into an executable Lean definition over explicit inputs.  External effects
(Playwright page actions, PIL image decoding, the filesystem) are modelled as
function parameters supplying the values the code would observe; everything the
repository itself computes is embedded directly.

Source files embedded here:
  - src/agent/click_nodes.py  (carousel traversal, dhash, click node)
  - src/core/click_verifier.py (coordinate validation)
  - src/agent/nodes.py         (polling detail-entry detector)
-/

/-! ## Perceptual hash (src/agent/click_nodes.py, _compute_image_hash and _hamming_distance) -/

/-- Fuel-driven bit count.  Models Python counting of set bits; the fuel argument
makes the recursion structural so that the kernel can evaluate it. -/
def popCountAux : Nat → Nat → Nat
  | 0, _ => 0
  | fuel + 1, n => if n = 0 then 0 else n % 2 + popCountAux fuel (n / 2)

/-- Number of 1 bits of a natural number, as computed by bin(x).count("1"). -/
def popCount (n : Nat) : Nat := popCountAux n n

/-- _hamming_distance: bin(hash1 XOR hash2).count("1"). -/
def hamming_distance (h1 h2 : Nat) : Nat := popCount (h1 ^^^ h2)

/-- One packing step of _compute_image_hash: hash_int = (hash_int << 1) OR int(bit). -/
def dhashStep (h : Nat) (b : Bool) : Nat := (h <<< 1) ||| (if b then 1 else 0)

/-- Packing loop of _compute_image_hash: fold dhashStep over the difference bits. -/
def packBits (bits : List Bool) : Nat := bits.foldl dhashStep 0

/-- The differences list of _compute_image_hash: for each row < hash_size and
col < hash_size, the bit is pixels[row*(hash_size+1)+col] > pixels[row*(hash_size+1)+col+1],
appended row first, column second (row-major).  PIL guarantees the pixel list has
exactly hash_size*(hash_size+1) entries, so the getD default is never consulted there. -/
def dhashDifferences (pixels : List Nat) (hashSize : Nat) : List Bool :=
  (List.range hashSize).flatMap fun row =>
    (List.range hashSize).map fun col =>
      decide (pixels.getD (row * (hashSize + 1) + col) 0 >
              pixels.getD (row * (hashSize + 1) + col + 1) 0)

/-- The hash computed by _compute_image_hash once the image has been decoded and
resized: pack the difference bits of the grayscale pixel grid.  Default
hash_size = 8 as in the source. -/
def computeImageHashFromPixels (pixels : List Nat) (hashSize : Nat := 8) : Nat :=
  packBits (dhashDifferences pixels hashSize)

/-- _compute_image_hash(image_bytes, hash_size=8).  The PIL pipeline
Image.open -> convert("L") -> resize((hash_size+1, hash_size), LANCZOS) -> getdata()
is external; it is modelled by the parameter dec, which returns the grayscale
pixel grid, or none when decoding raises (the except branch returns None). -/
def compute_image_hash (dec : List Nat → Option (List Nat)) (imageBytes : List Nat)
    (hashSize : Nat := 8) : Option Nat :=
  match dec imageBytes with
  | some pixels => some (computeImageHashFromPixels pixels hashSize)
  | none => none

/-! ## Carousel traversal (src/agent/click_nodes.py, _browse_images_with_arrow_keys)

The Playwright environment is modelled by shots : Nat → List Nat, where shots 0
is the screenshot taken before any ArrowRight press and shots (i+1) is the
screenshot taken after the press of loop iteration i, and by hashFn, the value
of _compute_image_hash on given screenshot bytes (in the code this is
compute_image_hash applied to the PIL decoder).  The state dict is modelled as
the totalImages counter threaded through (the call site always passes state).
noteDir tells whether output_dir and note_id were both provided, i.e. whether
frames are persisted. -/

/-- Python truthiness of an optional integer: None and 0 are falsy. -/
def optTruthy : Option Nat → Bool
  | none => false
  | some n => decide (n ≠ 0)

/-- The cap test `max_images and total >= max_images` (Python truthiness on the
left operand). -/
def capReached (maxImages : Option Nat) (total : Int) : Bool :=
  optTruthy maxImages && decide (((maxImages.getD 0 : Nat) : Int) ≤ total)

/-- State carried through the traversal loop.  savedCount is the return value of
the Python function; totalImages mirrors state["total_images"]; advances counts
ArrowRight presses; kept and deleted record the numeric suffixes of the frame
files on disk (image_001 is 1, the file written in loop iteration i is i+2). -/
structure BrowseState where
  prevShot : List Nat
  prevHash : Option Nat
  savedCount : Int
  totalImages : Int
  advances : Nat
  kept : List Nat
  deleted : List Nat
deriving DecidableEq, Repr

/-- One iteration of the `for i in range(arrow_count)` loop of
_browse_images_with_arrow_keys: the cap check before the ArrowRight press, the
press itself, the capture, the unconditional save, the two duplicate tests and
the duplicate rollback.  The Bool of the result is true when the iteration
breaks out of the loop. -/
def browseIter (hashFn : List Nat → Option Nat) (shots : Nat → List Nat)
    (maxImages : Option Nat) (noteDir : Bool) (i : Nat) (s : BrowseState) :
    BrowseState × Bool :=
  if capReached maxImages s.totalImages then (s, true)
  else
    let cur := shots (i + 1)
    let curHash := hashFn cur
    let s1 : BrowseState := { s with advances := s.advances + 1 }
    let s2 : BrowseState :=
      if noteDir then
        { s1 with savedCount := s1.savedCount + 1,
                  totalImages := s1.totalImages + 1,
                  kept := s1.kept ++ [i + 2] }
      else s1
    let isDup : Bool :=
      decide (cur = s.prevShot) ||
        (optTruthy s.prevHash && optTruthy curHash &&
          decide (hamming_distance (s.prevHash.getD 0) (curHash.getD 0) ≤ 4))
    if isDup then
      if noteDir then
        ({ s2 with savedCount := s2.savedCount - 1,
                   totalImages := max 0 (s2.totalImages - 1),
                   kept := s2.kept.dropLast,
                   deleted := s2.deleted ++ [i + 2] }, true)
      else (s2, true)
    else
      ({ s2 with prevShot := cur, prevHash := curHash }, false)

/-- The loop itself: run browseIter until it breaks or arrow_count iterations
have run.  fuel = remaining iterations, i = current iteration index. -/
def browseLoop (hashFn : List Nat → Option Nat) (shots : Nat → List Nat)
    (maxImages : Option Nat) (noteDir : Bool) :
    Nat → Nat → BrowseState → BrowseState
  | 0, _, s => s
  | fuel + 1, i, s =>
    match browseIter hashFn shots maxImages noteDir i s with
    | (s2, true) => s2
    | (s2, false) => browseLoop hashFn shots maxImages noteDir fuel (i + 1) s2

/-- _browse_images_with_arrow_keys(page, arrow_count, output_dir, note_id, state).
Returns the full final state; the Python return value is the savedCount field. -/
def browse_images_with_arrow_keys (hashFn : List Nat → Option Nat)
    (shots : Nat → List Nat) (arrowCount : Nat) (maxImages : Option Nat)
    (noteDir : Bool) (totalImages : Int) : BrowseState :=
  if capReached maxImages totalImages then
    ⟨[], none, 0, totalImages, 0, [], []⟩
  else
    let shot0 := shots 0
    let h0 := hashFn shot0
    let s0 : BrowseState :=
      if noteDir then ⟨shot0, h0, 1, totalImages + 1, 0, [1], []⟩
      else ⟨shot0, h0, 0, totalImages, 0, [], []⟩
    browseLoop hashFn shots maxImages noteDir arrowCount 0 s0

/-! ## Click verifier (src/core/click_verifier.py)

The DOM environment is modelled by: the viewport size, the boolean result of the
elementFromPoint JS probe (_element_from_point, whose is_note field is the only
one the control flow reads), and the raw getBoundingClientRect geometry of the
card elements; the contains flag and the centers are computed from that geometry
by the evaluated JS of _collect_note_rects, which is embedded below.  Rect
coordinates are rationals, standing for the JS float geometry; the meta field of
the returned dict is dropped (no claim mentions it). -/

structure Viewport where
  width : Int
  height : Int
deriving DecidableEq

structure Rect where
  x : ℚ
  y : ℚ
  width : ℚ
  height : ℚ
deriving DecidableEq

structure NoteRect where
  x : ℚ
  y : ℚ
  width : ℚ
  height : ℚ
  center_x : ℚ
  center_y : ℚ
  contains : Bool
deriving DecidableEq

/-- Python int() applied to a float: truncation toward zero. -/
def pyInt (q : ℚ) : Int := if q < 0 then ⌈q⌉ else ⌊q⌋

/-- One element of the list built by the JS of _collect_note_rects. -/
def mkNoteRect (r : Rect) (clickX clickY : Int) : NoteRect :=
  { x := r.x, y := r.y, width := r.width, height := r.height
    center_x := r.x + r.width / 2
    center_y := r.y + r.height / 2
    contains := decide (r.x ≤ (clickX : ℚ) ∧ (clickX : ℚ) ≤ r.x + r.width ∧
                        r.y ≤ (clickY : ℚ) ∧ (clickY : ℚ) ≤ r.y + r.height) }

/-- _collect_note_rects: map the JS rect computation over the card elements. -/
def collect_note_rects (rects : List Rect) (clickX clickY : Int) : List NoteRect :=
  rects.map fun r => mkNoteRect r clickX clickY

/-- _is_in_viewport: 0 <= x <= width and 0 <= y <= height. -/
def is_in_viewport (x y : Int) (vp : Viewport) : Bool :=
  decide (0 ≤ x ∧ x ≤ vp.width ∧ 0 ≤ y ∧ y ≤ vp.height)

structure BBox where
  x : ℚ
  y : ℚ
  width : ℚ
  height : ℚ
deriving DecidableEq

/-- _point_in_bbox. -/
def point_in_bbox (x y : Int) (b : BBox) : Bool :=
  decide ((x : ℚ) ≥ b.x ∧ (y : ℚ) ≥ b.y ∧
          (x : ℚ) ≤ b.x + b.width ∧ (y : ℚ) ≤ b.y + b.height)

/-- `bounding_box and self._point_in_bbox(x, y, bounding_box)`. -/
def bboxHit (bbox : Option BBox) (x y : Int) : Bool :=
  match bbox with
  | some b => point_in_bbox x y b
  | none => false

/-- Squared Euclidean distance from a card center to the click point.
The source compares math.hypot values; hypot is strictly monotone in the
squared distance, so the comparisons agree. -/
def distSq (cx cy : ℚ) (x y : Int) : ℚ := (cx - (x : ℚ)) ^ 2 + (cy - (y : ℚ)) ^ 2

/-- One iteration of the _find_nearest scan: keep the current best unless the
new rect is strictly closer (the first element always replaces the initial
infinite distance). -/
def nearStep (x y : Int) (acc : Option NoteRect) (r : NoteRect) : Option NoteRect :=
  match acc with
  | none => some r
  | some best =>
      if distSq r.center_x r.center_y x y < distSq best.center_x best.center_y x y then
        some r
      else some best

/-- _find_nearest: linear scan keeping the strictly closest center seen so far. -/
def find_nearest (l : List NoteRect) (x y : Int) : Option NoteRect :=
  l.foldl (nearStep x y) none

structure VerificationResult where
  is_valid : Bool
  click_x : Int
  click_y : Int
  reason : String
deriving DecidableEq

/-- ClickVerifier.validate.  elementHitIsNote is the is_note field of the
_element_from_point probe; rects is the raw card geometry seen by
_collect_note_rects; bbox is the optional caller hint. -/
def validate (vp : Viewport) (elementHitIsNote : Bool) (rects : List Rect)
    (bbox : Option BBox) (x y : Int) : VerificationResult :=
  if ¬ is_in_viewport x y vp then
    ⟨false, x, y, "coordinate outside viewport"⟩
  else if elementHitIsNote then
    ⟨true, x, y, "elementFromPoint matches note selector"⟩
  else
    match (collect_note_rects rects x y).find? (fun r => r.contains) with
    | some inside =>
        ⟨true, pyInt inside.center_x, pyInt inside.center_y, "within note card bounding box"⟩
    | none =>
        if bboxHit bbox x y then
          ⟨true, x, y, "within vision bounding box"⟩
        else
          match find_nearest (collect_note_rects rects x y) x y with
          | some nearest =>
              ⟨false, pyInt nearest.center_x, pyInt nearest.center_y,
                "no direct hit; suggesting nearest note card center"⟩
          | none => ⟨false, x, y, "no note card found near coordinate"⟩

/-! ## Claim-side geometric predicates (stated from the spec wording) -/

/-- A point lies inside a rectangle (closed). -/
def rectContainsPt (r : Rect) (x y : Int) : Prop :=
  r.x ≤ (x : ℚ) ∧ (x : ℚ) ≤ r.x + r.width ∧ r.y ≤ (y : ℚ) ∧ (y : ℚ) ≤ r.y + r.height

/-- A point lies strictly inside a rectangle. -/
def rectStrictlyContainsPt (r : Rect) (x y : Int) : Prop :=
  r.x < (x : ℚ) ∧ (x : ℚ) < r.x + r.width ∧ r.y < (y : ℚ) ∧ (y : ℚ) < r.y + r.height

/-- All four rectangle components are integral (denominator 1). -/
def rectIntegral (r : Rect) : Prop :=
  r.x.den = 1 ∧ r.y.den = 1 ∧ r.width.den = 1 ∧ r.height.den = 1

instance (r : Rect) (x y : Int) : Decidable (rectContainsPt r x y) := by
  unfold rectContainsPt; infer_instance

instance (r : Rect) (x y : Int) : Decidable (rectStrictlyContainsPt r x y) := by
  unfold rectStrictlyContainsPt; infer_instance

instance (r : Rect) : Decidable (rectIntegral r) := by
  unfold rectIntegral; infer_instance

/-! ## Click node (src/agent/click_nodes.py, click_coordinate_node)

The whole try block (the click itself, the detail-entry probe and the carousel
browse) is summarised by the attempt parameter: ok entered when it runs to
completion with entered_detail = entered, err msg when any step raises and the
except branch runs.  The carousel browse inside the try block is modelled
separately by browse_images_with_arrow_keys above; this node model covers the
bookkeeping the node itself performs on the graph state. -/

structure Candidate where
  marker_id : String
  click_x : Int
  click_y : Int
  note_id : String
  title : String
  hasElement : Bool
deriving DecidableEq

inductive ClickAttempt where
  | ok (entered : Bool)
  | err (msg : String)
deriving DecidableEq

structure ClickedRec where
  index : Nat
  marker_id : String
  click_x : Int
  click_y : Int
  note_id : String
  title : String
  entered_detail : Bool
  click_method : String
deriving DecidableEq

structure FailureRec where
  index : Nat
  marker_id : String
  click_x : Int
  click_y : Int
  note_id : String
  error : String
deriving DecidableEq

structure ClickNodeState where
  coordinates : List Candidate
  current_index : Nat
  clicked : List ClickedRec
  failures : List FailureRec
  step : String
  last_click_entered : Bool
deriving DecidableEq

/-- The failure record appended by the except branch. -/
def mkFailureRec (idx : Nat) (c : Candidate) (e : String) : FailureRec :=
  ⟨idx, c.marker_id, c.click_x, c.click_y, c.note_id, e⟩

/-- The success record appended after a completed attempt. -/
def mkClickedRec (idx : Nat) (c : Candidate) (entered : Bool) : ClickedRec :=
  ⟨idx, c.marker_id, c.click_x, c.click_y, c.note_id, c.title, entered,
    if c.hasElement then "element" else "coordinate"⟩

/-- Fallback candidate for the (unreachable) out-of-range list access. -/
def defaultCandidate : Candidate := ⟨"?", 0, 0, "", "N/A", false⟩

/-- click_coordinate_node as a pure transition on the graph state.  A LangGraph
node returns a partial update; the returned state here is the input state with
those keys replaced. -/
def click_coordinate_node (s : ClickNodeState) (attempt : ClickAttempt) : ClickNodeState :=
  if s.coordinates.length ≤ s.current_index then
    { s with step := "all_clicked" }
  else
    let c := s.coordinates.getD s.current_index defaultCandidate
    match attempt with
    | .ok entered =>
        { s with clicked := s.clicked ++ [mkClickedRec s.current_index c entered],
                 current_index := s.current_index + 1,
                 step := "clicked",
                 last_click_entered := entered }
    | .err e =>
        { s with failures := s.failures ++ [mkFailureRec s.current_index c e],
                 current_index := s.current_index + 1,
                 step := "click_failed",
                 last_click_entered := false }

/-! ## Detail-entry detectors

src/agent/nodes.py _verify_detail_page_entry is a polling loop: every
iteration rereads page.url and the detail selectors, then sleeps 0.3 s, until an
8000 ms (default) deadline.  The substring tests `k in current_url` are
summarised by the boolean observation fields; obs i is what iteration i of the
loop observes, and fuel is the number of iterations the deadline admits.

src/agent/click_nodes.py _verify_detail_entry is a single check with no loop
and no deadline: it reads the page exactly once. -/

structure DetailObs where
  urlHasDetail : Bool
  urlHasSearch : Bool
  selVisible : Bool
deriving DecidableEq

structure EntryResult where
  entered : Bool
  reason : String
deriving DecidableEq

/-- Default timeout of _verify_detail_page_entry, in milliseconds. -/
def VERIFY_DETAIL_TIMEOUT_MS : Nat := 8000

/-- Sleep between polling iterations (asyncio.sleep(0.3)), in milliseconds. -/
def VERIFY_POLL_INTERVAL_MS : Nat := 300

/-- The while loop of _verify_detail_page_entry. -/
def verifyPollLoop (obs : Nat → DetailObs) : Nat → Nat → EntryResult
  | 0, _ => ⟨false, "detail markers not found (timeout)"⟩
  | fuel + 1, i =>
    let o := obs i
    if o.urlHasDetail then ⟨true, "url_explore_path"⟩
    else if o.urlHasSearch then ⟨false, "still_on_search_page"⟩
    else if o.selVisible then ⟨true, "selector"⟩
    else verifyPollLoop obs fuel (i + 1)

/-- _verify_detail_page_entry (src/agent/nodes.py): poll from iteration 0. -/
def verify_detail_page_entry (obs : Nat → DetailObs) (fuel : Nat) : EntryResult :=
  verifyPollLoop obs fuel 0

structure ClickDetailObs where
  urlChanged : Bool
  urlHasDetail : Bool
  selVisible : Bool
deriving DecidableEq

/-- _verify_detail_entry (src/agent/click_nodes.py): a single-shot check, no
polling and no deadline. -/
def verify_detail_entry (beforeUrlGiven : Bool) (o : ClickDetailObs) : EntryResult :=
  if beforeUrlGiven && o.urlChanged && o.urlHasDetail then ⟨true, "url_changed"⟩
  else if o.selVisible then ⟨true, "selector"⟩
  else ⟨false, "not_detected"⟩

/-! ## Helper lemmas -/

theorem dhashStep_testBit_zero (a : Nat) (b : Bool) : (dhashStep a b).testBit 0 = b := by
  unfold dhashStep
  rw [Nat.testBit_or, Nat.testBit_shiftLeft]
  cases b <;> simp [Nat.testBit_zero]

theorem dhashStep_testBit_succ (a : Nat) (b : Bool) (j : Nat) :
    (dhashStep a b).testBit (j + 1) = a.testBit j := by
  unfold dhashStep
  rw [Nat.testBit_or, Nat.testBit_shiftLeft]
  cases b <;> simp [Nat.testBit_succ, Nat.zero_testBit]

theorem foldl_dhashStep_testBit (l : List Bool) (a : Nat) (i : Nat) :
    (l.foldl dhashStep a).testBit i =
      if i < l.length then l.getD (l.length - 1 - i) false
      else a.testBit (i - l.length) := by
  induction l generalizing a with
  | nil => simp
  | cons b t ih =>
    rw [List.foldl_cons, ih]
    rcases Nat.lt_trichotomy i t.length with h | h | h
    · rw [if_pos h, if_pos (by simp only [List.length_cons]; omega)]
      have he : (b :: t).length - 1 - i = (t.length - 1 - i) + 1 := by
        simp only [List.length_cons]; omega
      rw [he, List.getD_cons_succ]
    · subst h
      rw [if_neg (lt_irrefl _), Nat.sub_self, dhashStep_testBit_zero,
        if_pos (by simp only [List.length_cons]; omega),
        show (b :: t).length - 1 - t.length = 0 by simp only [List.length_cons]; omega,
        List.getD_cons_zero]
    · rw [if_neg (by omega), if_neg (by simp only [List.length_cons]; omega),
        show i - t.length = (i - (b :: t).length) + 1 by simp only [List.length_cons]; omega,
        dhashStep_testBit_succ]

theorem packBits_testBit (l : List Bool) (i : Nat) (h : i < l.length) :
    (packBits l).testBit i = l.getD (l.length - 1 - i) false := by
  unfold packBits
  rw [foldl_dhashStep_testBit, if_pos h]

theorem flatMap_range_length (f : Nat → List Bool) (m n : Nat)
    (hf : ∀ r, (f r).length = n) :
    ((List.range m).flatMap f).length = m * n := by
  induction m with
  | zero => simp
  | succ k ih =>
    rw [List.range_succ, List.flatMap_append, List.length_append, ih]
    simp [hf, Nat.succ_mul]

theorem flatMap_range_getD (f : Nat → List Bool) (n : Nat)
    (hf : ∀ r, (f r).length = n) (row c : Nat) (hc : c < n) :
    ∀ m, row < m →
      ((List.range m).flatMap f).getD (row * n + c) false = (f row).getD c false := by
  intro m
  induction m with
  | zero => omega
  | succ k ih =>
    intro hr
    rw [List.range_succ, List.flatMap_append]
    rcases Nat.lt_or_ge row k with h | h
    · rw [List.getD_append]
      · exact ih h
      · rw [flatMap_range_length f k n hf]
        calc row * n + c < row * n + n := by omega
          _ = (row + 1) * n := (Nat.succ_mul row n).symm
          _ ≤ k * n := Nat.mul_le_mul_right n h
    · have hrk : row = k := by omega
      subst hrk
      rw [List.getD_append_right]
      · rw [flatMap_range_length f row n hf]
        simp
      · rw [flatMap_range_length f row n hf]
        omega

theorem dhashDifferences_length (pixels : List Nat) (n : Nat) :
    (dhashDifferences pixels n).length = n * n := by
  unfold dhashDifferences
  rw [flatMap_range_length]
  intro r
  simp

theorem dhashDifferences_getD (pixels : List Nat) (n row col : Nat)
    (hr : row < n) (hc : col < n) :
    (dhashDifferences pixels n).getD (row * n + col) false =
      decide (pixels.getD (row * (n + 1) + col) 0 >
              pixels.getD (row * (n + 1) + col + 1) 0) := by
  unfold dhashDifferences
  rw [flatMap_range_getD _ n (fun r => by simp) row col hc n hr]
  rw [List.getD_eq_getElem _ _ (by simp [hc]), List.getElem_map, List.getElem_range]

theorem pyInt_bounds (a b : Int) (q : ℚ) (h1 : (a : ℚ) ≤ q) (h2 : q ≤ (b : ℚ)) :
    (a : ℚ) ≤ (pyInt q : ℚ) ∧ (pyInt q : ℚ) ≤ (b : ℚ) := by
  unfold pyInt
  split
  · constructor
    · have : a ≤ ⌈q⌉ := by
        calc a = ⌈(a : ℚ)⌉ := (Int.ceil_intCast a).symm
          _ ≤ ⌈q⌉ := Int.ceil_mono h1
      exact_mod_cast this
    · have : ⌈q⌉ ≤ b := Int.ceil_le.mpr h2
      exact_mod_cast this
  · constructor
    · have : a ≤ ⌊q⌋ := Int.le_floor.mpr h1
      exact_mod_cast this
    · have : ⌊q⌋ ≤ b := by
        calc ⌊q⌋ ≤ ⌊(b : ℚ)⌋ := Int.floor_mono h2
          _ = b := Int.floor_intCast b
      exact_mod_cast this

theorem foldl_nearStep_spec (x y : Int) (l : List NoteRect) :
    ∀ a : NoteRect, ∃ m, l.foldl (nearStep x y) (some a) = some m ∧
      (m = a ∨ m ∈ l) ∧
      distSq m.center_x m.center_y x y ≤ distSq a.center_x a.center_y x y ∧
      ∀ r ∈ l, distSq m.center_x m.center_y x y ≤ distSq r.center_x r.center_y x y := by
  induction l with
  | nil =>
    intro a
    exact ⟨a, rfl, Or.inl rfl, le_refl _, by intro r hr; cases hr⟩
  | cons r t ih =>
    intro a
    rw [List.foldl_cons]
    by_cases h : distSq r.center_x r.center_y x y < distSq a.center_x a.center_y x y
    · have hstep : nearStep x y (some a) r = some r := by
        simp [nearStep, if_pos h]
      rw [hstep]
      obtain ⟨m, hm, hmem, hle, hall⟩ := ih r
      refine ⟨m, hm, ?_, le_trans hle (le_of_lt h), ?_⟩
      · rcases hmem with h1 | h1
        · exact Or.inr (h1 ▸ List.mem_cons_self r t)
        · exact Or.inr (List.mem_cons_of_mem r h1)
      · intro r2 hr2
        rcases List.mem_cons.mp hr2 with h2 | h2
        · rw [h2]; exact hle
        · exact hall r2 h2
    · have hstep : nearStep x y (some a) r = some a := by
        simp [nearStep, if_neg h]
      rw [hstep]
      obtain ⟨m, hm, hmem, hle, hall⟩ := ih a
      refine ⟨m, hm, ?_, hle, ?_⟩
      · rcases hmem with h1 | h1
        · exact Or.inl h1
        · exact Or.inr (List.mem_cons_of_mem r h1)
      · intro r2 hr2
        rcases List.mem_cons.mp hr2 with h2 | h2
        · rw [h2]; exact le_trans hle (not_lt.mp h)
        · exact hall r2 h2

theorem find_nearest_spec (x y : Int) (r0 : NoteRect) (t : List NoteRect) :
    ∃ m, find_nearest (r0 :: t) x y = some m ∧ m ∈ r0 :: t ∧
      ∀ r2 ∈ r0 :: t,
        distSq m.center_x m.center_y x y ≤ distSq r2.center_x r2.center_y x y := by
  unfold find_nearest
  rw [List.foldl_cons]
  have hstep : nearStep x y none r0 = some r0 := rfl
  rw [hstep]
  obtain ⟨m, hm, hmem, hle, hall⟩ := foldl_nearStep_spec x y t r0
  refine ⟨m, hm, ?_, ?_⟩
  · rcases hmem with h1 | h1
    · exact h1 ▸ List.mem_cons_self r0 t
    · exact List.mem_cons_of_mem r0 h1
  · intro r2 hr2
    rcases List.mem_cons.mp hr2 with h2 | h2
    · rw [h2]; exact hle
    · exact hall r2 h2

theorem capReached_some_iff (m : Nat) (t : Int) (hm : m ≠ 0) :
    capReached (some m) t = true ↔ (m : Int) ≤ t := by
  simp [capReached, optTruthy, hm]

theorem capReached_none (t : Int) : capReached none t = false := by
  simp [capReached, optTruthy]

theorem browseIter_cap_stop (hashFn : List Nat → Option Nat) (shots : Nat → List Nat)
    (maxImages : Option Nat) (noteDir : Bool) (i : Nat) (s : BrowseState)
    (h : capReached maxImages s.totalImages = true) :
    browseIter hashFn shots maxImages noteDir i s = (s, true) := by
  unfold browseIter
  rw [if_pos h]

theorem browseLoop_stop (hashFn : List Nat → Option Nat) (shots : Nat → List Nat)
    (maxImages : Option Nat) (noteDir : Bool) (fuel i : Nat) (s : BrowseState)
    (h : capReached maxImages s.totalImages = true) :
    browseLoop hashFn shots maxImages noteDir fuel i s = s := by
  cases fuel with
  | zero => rfl
  | succ k =>
    simp only [browseLoop, browseIter_cap_stop hashFn shots maxImages noteDir i s h]

theorem browseLoop_succ_iter_false (hashFn : List Nat → Option Nat)
    (shots : Nat → List Nat) (maxImages : Option Nat) (noteDir : Bool)
    (fuel i : Nat) (s s2 : BrowseState)
    (h : browseIter hashFn shots maxImages noteDir i s = (s2, false)) :
    browseLoop hashFn shots maxImages noteDir (fuel + 1) i s =
      browseLoop hashFn shots maxImages noteDir fuel (i + 1) s2 := by
  simp only [browseLoop, h]

theorem browseLoop_succ_iter_true (hashFn : List Nat → Option Nat)
    (shots : Nat → List Nat) (maxImages : Option Nat) (noteDir : Bool)
    (fuel i : Nat) (s s2 : BrowseState)
    (h : browseIter hashFn shots maxImages noteDir i s = (s2, true)) :
    browseLoop hashFn shots maxImages noteDir (fuel + 1) i s = s2 := by
  simp only [browseLoop, h]

theorem browseIter_keep (hashFn : List Nat → Option Nat) (shots : Nat → List Nat)
    (maxImages : Option Nat) (i : Nat) (s : BrowseState)
    (hcap : capReached maxImages s.totalImages = false)
    (hbytes : shots (i + 1) ≠ s.prevShot)
    (hskip : (optTruthy s.prevHash && optTruthy (hashFn (shots (i + 1))) &&
      decide (hamming_distance (s.prevHash.getD 0)
        ((hashFn (shots (i + 1))).getD 0) ≤ 4)) = false) :
    browseIter hashFn shots maxImages true i s =
      (⟨shots (i + 1), hashFn (shots (i + 1)), s.savedCount + 1, s.totalImages + 1,
        s.advances + 1, s.kept ++ [i + 2], s.deleted⟩, false) := by
  unfold browseIter
  rw [if_neg (by rw [hcap]; exact Bool.false_ne_true)]
  have h1 : decide (shots (i + 1) = s.prevShot) = false := decide_eq_false hbytes
  simp only [h1, hskip, Bool.false_or, if_true, if_false, Bool.false_eq_true, ite_true, ite_false]

theorem browseIter_dup_delete (hashFn : List Nat → Option Nat) (shots : Nat → List Nat)
    (maxImages : Option Nat) (i : Nat) (s : BrowseState)
    (hcap : capReached maxImages s.totalImages = false)
    (hdup : (decide (shots (i + 1) = s.prevShot) ||
      (optTruthy s.prevHash && optTruthy (hashFn (shots (i + 1))) &&
        decide (hamming_distance (s.prevHash.getD 0)
          ((hashFn (shots (i + 1))).getD 0) ≤ 4))) = true) :
    browseIter hashFn shots maxImages true i s =
      (⟨s.prevShot, s.prevHash, s.savedCount, max 0 s.totalImages,
        s.advances + 1, s.kept, s.deleted ++ [i + 2]⟩, true) := by
  unfold browseIter
  rw [if_neg (by rw [hcap]; exact Bool.false_ne_true)]
  simp only [hdup, if_true, ite_true, ite_false]
  rw [List.dropLast_concat]
  norm_num

theorem browseIter_total_cases (hashFn : List Nat → Option Nat) (shots : Nat → List Nat)
    (maxImages : Option Nat) (noteDir : Bool) (i : Nat) (s : BrowseState) :
    (browseIter hashFn shots maxImages noteDir i s).1.totalImages = s.totalImages ∨
    (browseIter hashFn shots maxImages noteDir i s).1.totalImages = s.totalImages + 1 ∨
    (browseIter hashFn shots maxImages noteDir i s).1.totalImages = max 0 s.totalImages := by
  unfold browseIter
  by_cases h1 : capReached maxImages s.totalImages = true
  · rw [if_pos h1]; left; rfl
  · rw [if_neg h1]
    cases noteDir
    · simp only [Bool.false_eq_true, ite_false]
      split
      · left; rfl
      · left; rfl
    · simp only [ite_true]
      split
      · right; right; simp
      · right; left; rfl

theorem browseLoop_total_nonneg (hashFn : List Nat → Option Nat) (shots : Nat → List Nat)
    (maxImages : Option Nat) (noteDir : Bool) :
    ∀ (fuel i : Nat) (s : BrowseState), 0 ≤ s.totalImages →
      0 ≤ (browseLoop hashFn shots maxImages noteDir fuel i s).totalImages := by
  intro fuel
  induction fuel with
  | zero => intro i s h; exact h
  | succ k ih =>
    intro i s h
    rcases hit : browseIter hashFn shots maxImages noteDir i s with ⟨s2, b⟩
    have h2 : 0 ≤ s2.totalImages := by
      have hcases := browseIter_total_cases hashFn shots maxImages noteDir i s
      rw [hit] at hcases
      dsimp only at hcases
      rcases hcases with e | e | e
      · rw [e]; exact h
      · rw [e]; omega
      · rw [e]; exact le_max_left 0 _
    cases b
    · rw [browseLoop_succ_iter_false _ _ _ _ k i s s2 hit]
      exact ih (i + 1) s2 h2
    · rw [browseLoop_succ_iter_true _ _ _ _ k i s s2 hit]
      exact h2

theorem browseLoop_total_le (hashFn : List Nat → Option Nat) (shots : Nat → List Nat)
    (m : Nat) (hm : m ≠ 0) (noteDir : Bool) :
    ∀ (fuel i : Nat) (s : BrowseState), s.totalImages ≤ (m : Int) →
      (browseLoop hashFn shots (some m) noteDir fuel i s).totalImages ≤ (m : Int) := by
  intro fuel
  induction fuel with
  | zero => intro i s h; exact h
  | succ k ih =>
    intro i s h
    by_cases hc : capReached (some m) s.totalImages = true
    · rw [browseLoop_stop _ _ _ _ _ _ _ hc]
      exact h
    · have hlt : s.totalImages < (m : Int) := by
        rcases lt_or_le s.totalImages (m : Int) with h1 | h1
        · exact h1
        · exact absurd ((capReached_some_iff m _ hm).mpr h1) hc
      rcases hit : browseIter hashFn shots (some m) noteDir i s with ⟨s2, b⟩
      have h2 : s2.totalImages ≤ (m : Int) := by
        have hcases := browseIter_total_cases hashFn shots (some m) noteDir i s
        rw [hit] at hcases
        dsimp only at hcases
        rcases hcases with e | e | e
        · rw [e]; exact h
        · rw [e]; omega
        · rw [e]
          exact max_le (Int.natCast_nonneg m) h
      cases b
      · rw [browseLoop_succ_iter_false _ _ _ _ k i s s2 hit]
        exact ih (i + 1) s2 h2
      · rw [browseLoop_succ_iter_true _ _ _ _ k i s s2 hit]
        exact h2

theorem verifyPollLoop_timeout (obs : Nat → DetailObs) :
    ∀ (fuel i : Nat),
      (∀ j, i ≤ j → j < i + fuel → (obs j).urlHasDetail = false ∧
        (obs j).urlHasSearch = false ∧ (obs j).selVisible = false) →
      verifyPollLoop obs fuel i = ⟨false, "detail markers not found (timeout)"⟩ := by
  intro fuel
  induction fuel with
  | zero => intro i _; rfl
  | succ k ih =>
    intro i h
    obtain ⟨h1, h2, h3⟩ := h i (le_refl i) (by omega)
    simp only [verifyPollLoop, h1, h2, h3, Bool.false_eq_true, if_false, ite_false]
    exact ih (i + 1) (fun j hj1 hj2 => h j (by omega) (by omega))

theorem browseLoop_hash_none (hashFn : List Nat → Option Nat) (shots : Nat → List Nat)
    (hnone : ∀ b2, hashFn b2 = none) :
    ∀ (fuel i : Nat) (s : BrowseState),
      (∀ j, i ≤ j → j < i + fuel → shots (j + 1) ≠ shots j) →
      s.prevShot = shots i → s.prevHash = none →
      (browseLoop hashFn shots none true fuel i s).savedCount = s.savedCount + fuel ∧
      (browseLoop hashFn shots none true fuel i s).deleted = s.deleted := by
  intro fuel
  induction fuel with
  | zero =>
    intro i s _ _ _
    constructor
    · simp [browseLoop]
    · rfl
  | succ k ih =>
    intro i s hne hshot hhash
    have hkeep := browseIter_keep hashFn shots none i s (capReached_none _)
      (by rw [hshot]; exact hne i (le_refl i) (by omega))
      (by rw [hhash]; rfl)
    rw [browseLoop_succ_iter_false _ _ _ _ k i s _ hkeep]
    obtain ⟨hs, hd⟩ := ih (i + 1)
      ⟨shots (i + 1), hashFn (shots (i + 1)), s.savedCount + 1, s.totalImages + 1,
        s.advances + 1, s.kept ++ [i + 2], s.deleted⟩
      (fun j hj1 hj2 => hne j (by omega) (by omega)) rfl (hnone _)
    constructor
    · rw [hs]
      push_cast
      ring
    · exact hd

/-! ## Claim theorems -/

/-- C3: _compute_image_hash downscales to an (n+1) x n grid (the external PIL
step, with default n = 8 as the optional hashSize parameter), and sets each of
the n x n hash bits to 1 exactly when the left pixel of a horizontal pair is
strictly brighter than the right pixel, packing the bits row-major MSB first
into a single integer: bit (n*n - 1 - (row*n + col)) of the packed integer
equals the strict left-brighter comparison at (row, col).  Hashing the same
image bytes twice yields the same integer. -/
theorem C3_hash_bits_and_deterministic :
    (∀ (pixels : List Nat) (n row col : Nat), row < n → col < n →
      (computeImageHashFromPixels pixels n).testBit (n * n - 1 - (row * n + col)) =
        decide (pixels.getD (row * (n + 1) + col) 0 >
                pixels.getD (row * (n + 1) + col + 1) 0)) ∧
    (∀ (dec : List Nat → Option (List Nat)) (imageBytes : List Nat) (hashSize : Nat),
      compute_image_hash dec imageBytes hashSize =
        compute_image_hash dec imageBytes hashSize) := by
  constructor
  · intro pixels n row col hr hc
    have hidx : row * n + col < n * n := by
      calc row * n + col < row * n + n := by omega
        _ = (row + 1) * n := (Nat.succ_mul row n).symm
        _ ≤ n * n := Nat.mul_le_mul_right n hr
    unfold computeImageHashFromPixels
    have hlen := dhashDifferences_length pixels n
    rw [packBits_testBit _ _ (by rw [hlen]; omega)]
    rw [hlen, show n * n - 1 - (n * n - 1 - (row * n + col)) = row * n + col by omega]
    exact dhashDifferences_getD pixels n row col hr hc
  · intro _ _ _
    rfl

/-- Witness for C3 at a concrete 2 x 3 pixel grid, row 0, column 1. -/
theorem C3_witness :
    ((0 : Nat) < 2 ∧ (1 : Nat) < 2) ∧
      (computeImageHashFromPixels [10, 5, 3, 7, 7, 9] 2).testBit (2 * 2 - 1 - (0 * 2 + 1)) =
        decide ([10, 5, 3, 7, 7, 9].getD (0 * (2 + 1) + 1) 0 >
                [10, 5, 3, 7, 7, 9].getD (0 * (2 + 1) + 1 + 1) 0) :=
  ⟨⟨by decide, by decide⟩,
    C3_hash_bits_and_deterministic.1 [10, 5, 3, 7, 7, 9] 2 0 1 (by decide) (by decide)⟩

/-- C1: the traverser checks the running saved-image total against the cap
before each advance: once the cap is reached the loop stops with the state
unchanged (no further advance is issued), with a configured nonzero cap m the
running total never exceeds m, and in the concrete scenario with cap 10 and two
detail views each able to produce 6 distinct frames the first visit saves 6
(total 6) and the second saves exactly 4 and stops after 3 advances
(total exactly 10). -/
theorem C1_cap_never_exceeded :
    (∀ (hashFn : List Nat → Option Nat) (shots : Nat → List Nat) (fuel i : Nat)
        (maxImages : Option Nat) (noteDir : Bool) (s : BrowseState),
      capReached maxImages s.totalImages = true →
      browseLoop hashFn shots maxImages noteDir fuel i s = s) ∧
    (∀ (hashFn : List Nat → Option Nat) (shots : Nat → List Nat) (arrowCount m : Nat)
        (noteDir : Bool) (t : Int), m ≠ 0 → t ≤ (m : Int) →
      (browse_images_with_arrow_keys hashFn shots arrowCount (some m) noteDir
        t).totalImages ≤ (m : Int)) ∧
    ((browse_images_with_arrow_keys (fun b2 => some (if (b2.headD 0) % 2 = 0 then 31 else 992))
        (fun k => [k]) 5 (some 10) true 0).savedCount = 6 ∧
     (browse_images_with_arrow_keys (fun b2 => some (if (b2.headD 0) % 2 = 0 then 31 else 992))
        (fun k => [k]) 5 (some 10) true 0).totalImages = 6 ∧
     (browse_images_with_arrow_keys (fun b2 => some (if (b2.headD 0) % 2 = 0 then 31 else 992))
        (fun k => [k]) 5 (some 10) true 0).advances = 5 ∧
     (browse_images_with_arrow_keys (fun b2 => some (if (b2.headD 0) % 2 = 0 then 31 else 992))
        (fun k => [k]) 5 (some 10) true 6).savedCount = 4 ∧
     (browse_images_with_arrow_keys (fun b2 => some (if (b2.headD 0) % 2 = 0 then 31 else 992))
        (fun k => [k]) 5 (some 10) true 6).totalImages = 10 ∧
     (browse_images_with_arrow_keys (fun b2 => some (if (b2.headD 0) % 2 = 0 then 31 else 992))
        (fun k => [k]) 5 (some 10) true 6).advances = 3) := by
  refine ⟨?_, ?_, ?_⟩
  · intro hashFn shots fuel i maxImages noteDir s h
    exact browseLoop_stop hashFn shots maxImages noteDir fuel i s h
  · intro hashFn shots ac m nd t hm ht
    unfold browse_images_with_arrow_keys
    by_cases hcp : capReached (some m) t = true
    · rw [if_pos hcp]
      exact ht
    · rw [if_neg hcp]
      have hlt : t < (m : Int) := by
        rcases lt_or_le t (m : Int) with h1 | h1
        · exact h1
        · exact absurd ((capReached_some_iff m t hm).mpr h1) hcp
      cases nd
      · simp only [Bool.false_eq_true, ite_false]
        exact browseLoop_total_le hashFn shots m hm false ac 0 _ ht
      · simp only [ite_true]
        exact browseLoop_total_le hashFn shots m hm true ac 0 _ (by dsimp only; omega)
  · exact ⟨by decide, by decide, by decide, by decide, by decide, by decide⟩

/-- Witness for C1 at the concrete second-visit scenario state. -/
theorem C1_witness :
    ((10 : Nat) ≠ 0 ∧ (6 : Int) ≤ ((10 : Nat) : Int)) ∧
      (browse_images_with_arrow_keys (fun b2 => some (if (b2.headD 0) % 2 = 0 then 31 else 992))
        (fun k => [k]) 5 (some 10) true 6).totalImages ≤ ((10 : Nat) : Int) :=
  ⟨⟨by decide, by decide⟩,
    C1_cap_never_exceeded.2.1 (fun b2 => some (if (b2.headD 0) % 2 = 0 then 31 else 992))
      (fun k => [k]) 5 10 true 6 (by decide) (by decide)⟩

/-- C9: the running total state["total_images"] never becomes negative: each
save adds exactly 1 and the rollback decrement is max(0, total - 1), so
0 <= totalImages is preserved by the loop from any state and by the whole
function from any nonnegative starting total. -/
theorem C9_total_images_nonneg :
    (∀ (hashFn : List Nat → Option Nat) (shots : Nat → List Nat)
        (maxImages : Option Nat) (noteDir : Bool) (fuel i : Nat) (s : BrowseState),
      0 ≤ s.totalImages →
      0 ≤ (browseLoop hashFn shots maxImages noteDir fuel i s).totalImages) ∧
    (∀ (hashFn : List Nat → Option Nat) (shots : Nat → List Nat) (arrowCount : Nat)
        (maxImages : Option Nat) (noteDir : Bool) (t : Int), 0 ≤ t →
      0 ≤ (browse_images_with_arrow_keys hashFn shots arrowCount maxImages noteDir
        t).totalImages) := by
  constructor
  · intro hashFn shots maxImages noteDir fuel i s h
    exact browseLoop_total_nonneg hashFn shots maxImages noteDir fuel i s h
  · intro hashFn shots ac mi nd t ht
    unfold browse_images_with_arrow_keys
    by_cases hcp : capReached mi t = true
    · rw [if_pos hcp]
      exact ht
    · rw [if_neg hcp]
      cases nd
      · simp only [Bool.false_eq_true, ite_false]
        exact browseLoop_total_nonneg _ _ _ _ ac 0 _ ht
      · simp only [ite_true]
        exact browseLoop_total_nonneg _ _ _ _ ac 0 _ (by dsimp only; omega)

/-- Witness for C9 with a concrete traversal that rolls back a duplicate. -/
theorem C9_witness :
    (0 : Int) ≤ 0 ∧
      0 ≤ (browse_images_with_arrow_keys (fun _ => none) (fun _ => [7]) 4 none true
        0).totalImages :=
  ⟨le_refl 0,
    C9_total_images_nonneg.2 (fun _ => none) (fun _ => [7]) 4 none true 0 (by decide)⟩

/-- C10: when the captured bytes cannot be decoded, _compute_image_hash returns
None instead of raising; and when the previous or current hash is None the
Hamming check is skipped, so with undecodable frames traversal is stopped only
by exact byte equality: with all hashes None and pairwise distinct consecutive
screenshots the loop always runs to completion (nothing deleted), while an
exact byte repeat still stops it and rolls the frame back. -/
theorem C10_none_hash_skips_hamming :
    (∀ (dec : List Nat → Option (List Nat)) (imageBytes : List Nat) (hashSize : Nat),
      dec imageBytes = none → compute_image_hash dec imageBytes hashSize = none) ∧
    (∀ (hashFn : List Nat → Option Nat) (shots : Nat → List Nat) (ac : Nat) (t : Int),
      (∀ b2, hashFn b2 = none) →
      (∀ j, j < ac → shots (j + 1) ≠ shots j) →
      (browse_images_with_arrow_keys hashFn shots ac none true t).savedCount =
        1 + (ac : Int) ∧
      (browse_images_with_arrow_keys hashFn shots ac none true t).deleted = []) ∧
    (∀ (hashFn : List Nat → Option Nat) (shots : Nat → List Nat) (ac : Nat) (t : Int),
      (∀ b2, hashFn b2 = none) → shots 1 = shots 0 → 1 ≤ ac →
      (browse_images_with_arrow_keys hashFn shots ac none true t).savedCount = 1 ∧
      (browse_images_with_arrow_keys hashFn shots ac none true t).deleted = [2]) := by
  refine ⟨?_, ?_, ?_⟩
  · intro dec imageBytes hashSize h
    unfold compute_image_hash
    rw [h]
  · intro hashFn shots ac t hnone hne
    unfold browse_images_with_arrow_keys
    rw [if_neg (by rw [capReached_none]; exact Bool.false_ne_true)]
    simp only [ite_true]
    have := browseLoop_hash_none hashFn shots hnone ac 0
      ⟨shots 0, hashFn (shots 0), 1, t + 1, 0, [1], []⟩
      (fun j hj1 hj2 => hne j (by omega)) rfl (hnone _)
    exact this
  · intro hashFn shots ac t hnone heq hac
    obtain ⟨k, rfl⟩ : ∃ k, ac = k + 1 := ⟨ac - 1, by omega⟩
    unfold browse_images_with_arrow_keys
    rw [if_neg (by rw [capReached_none]; exact Bool.false_ne_true)]
    simp only [ite_true]
    have hdup := browseIter_dup_delete hashFn shots none 0
      ⟨shots 0, hashFn (shots 0), 1, t + 1, 0, [1], []⟩ (capReached_none _)
      (by
        have : decide (shots (0 + 1) = shots 0) = true := decide_eq_true heq
        simp [this])
    rw [browseLoop_succ_iter_true _ _ _ _ k 0 _ _ hdup]
    exact ⟨rfl, rfl⟩

/-- Witness for C10 with undecodable frames and distinct screenshots. -/
theorem C10_witness :
    ((∀ b2 : List Nat, (fun _ : List Nat => (none : Option Nat)) b2 = none) ∧
     (∀ j, j < 3 → (fun k : Nat => [k]) (j + 1) ≠ (fun k : Nat => [k]) j)) ∧
      (browse_images_with_arrow_keys (fun _ => none) (fun k => [k]) 3 none true
        0).savedCount = 1 + (3 : Int) ∧
      (browse_images_with_arrow_keys (fun _ => none) (fun k => [k]) 3 none true
        0).deleted = [] :=
  ⟨⟨fun _ => rfl, by decide⟩,
    C10_none_hash_skips_hamming.2.1 (fun _ => none) (fun k => [k]) 3 0
      (fun _ => rfl) (by decide)⟩

/-- C2: after each advance the new frame is compared to the previous one first
by exact byte equality, then by Hamming distance of the two dhash values with
threshold 4; on either duplicate condition the just-persisted file is deleted,
the saved counter is decremented and traversal stops.  For any environment
whose successive frames have hash distances 12, 9, 3 against the previous frame
(distinct bytes, nonzero hashes, at least 3 allowed advances), traversal saves
3 frames, stops at the 4th advance-frame and deletes that 4th file. -/
theorem C2_hamming_duplicate_stops :
    ∀ (hashFn : List Nat → Option Nat) (shots : Nat → List Nat) (ac : Nat) (t : Int)
      (a b c d : Nat),
      hashFn (shots 0) = some a → hashFn (shots 1) = some b →
      hashFn (shots 2) = some c → hashFn (shots 3) = some d →
      a ≠ 0 → b ≠ 0 → c ≠ 0 → d ≠ 0 →
      hamming_distance a b = 12 → hamming_distance b c = 9 →
      hamming_distance c d = 3 →
      shots 1 ≠ shots 0 → shots 2 ≠ shots 1 → shots 3 ≠ shots 2 →
      3 ≤ ac → 0 ≤ t →
      (browse_images_with_arrow_keys hashFn shots ac none true t).savedCount = 3 ∧
      (browse_images_with_arrow_keys hashFn shots ac none true t).kept = [1, 2, 3] ∧
      (browse_images_with_arrow_keys hashFn shots ac none true t).deleted = [4] ∧
      (browse_images_with_arrow_keys hashFn shots ac none true t).advances = 3 ∧
      (browse_images_with_arrow_keys hashFn shots ac none true t).totalImages = t + 3 := by
  intro hashFn shots ac t a b c d ha hb hc hd ha0 hb0 hc0 hd0 dab dbc dcd ne1 ne2 ne3 hac ht
  obtain ⟨k, rfl⟩ : ∃ k, ac = k + 3 := ⟨ac - 3, by omega⟩
  unfold browse_images_with_arrow_keys
  rw [if_neg (by rw [capReached_none]; exact Bool.false_ne_true)]
  simp only [ite_true]
  have i1 := browseIter_keep hashFn shots none 0
    ⟨shots 0, hashFn (shots 0), 1, t + 1, 0, [1], []⟩ (capReached_none _)
    (by simpa using ne1)
    (by simp [ha, hb, optTruthy, ha0, hb0, dab])
  have st1 : browseLoop hashFn shots none true (k + 3) 0
      ⟨shots 0, hashFn (shots 0), 1, t + 1, 0, [1], []⟩ =
      browseLoop hashFn shots none true (k + 2) 1
      ⟨shots 1, hashFn (shots 1), 2, t + 2, 1, [1, 2], []⟩ := by
    rw [browseLoop_succ_iter_false _ _ _ _ (k + 2) 0 _ _ i1]
    congr 1
    dsimp only
    simp only [BrowseState.mk.injEq]
    norm_num
    omega
  have i2 := browseIter_keep hashFn shots none 1
    ⟨shots 1, hashFn (shots 1), 2, t + 2, 1, [1, 2], []⟩ (capReached_none _)
    (by simpa using ne2)
    (by simp [hb, hc, optTruthy, hb0, hc0, dbc])
  have st2 : browseLoop hashFn shots none true (k + 2) 1
      ⟨shots 1, hashFn (shots 1), 2, t + 2, 1, [1, 2], []⟩ =
      browseLoop hashFn shots none true (k + 1) 2
      ⟨shots 2, hashFn (shots 2), 3, t + 3, 2, [1, 2, 3], []⟩ := by
    rw [browseLoop_succ_iter_false _ _ _ _ (k + 1) 1 _ _ i2]
    congr 1
    dsimp only
    simp only [BrowseState.mk.injEq]
    norm_num
    omega
  have i3 := browseIter_dup_delete hashFn shots none 2
    ⟨shots 2, hashFn (shots 2), 3, t + 3, 2, [1, 2, 3], []⟩ (capReached_none _)
    (by simp [hc, hd, optTruthy, hc0, hd0, dcd, ne3])
  have st3 : browseLoop hashFn shots none true (k + 1) 2
      ⟨shots 2, hashFn (shots 2), 3, t + 3, 2, [1, 2, 3], []⟩ =
      ⟨shots 2, hashFn (shots 2), 3, max 0 (t + 3), 3, [1, 2, 3], [4]⟩ := by
    rw [browseLoop_succ_iter_true _ _ _ _ k 2 _ _ i3]
    dsimp only
    simp only [BrowseState.mk.injEq]
    norm_num
  rw [st1, st2, st3]
  refine ⟨rfl, rfl, rfl, rfl, ?_⟩
  dsimp only
  omega

/-- Witness for C2 with concrete hashes of Hamming distances 12, 9, 3. -/
theorem C2_witness :
    (hamming_distance 1 65521 = 12 ∧ hamming_distance 65521 65038 = 9 ∧
      hamming_distance 65038 65033 = 3 ∧ (3 : Nat) ≤ 5 ∧ (0 : Int) ≤ 0) ∧
    (browse_images_with_arrow_keys
        (fun b2 => some ([1, 65521, 65038, 65033].getD (b2.headD 0) 1))
        (fun k => [k]) 5 none true 0).savedCount = 3 ∧
    (browse_images_with_arrow_keys
        (fun b2 => some ([1, 65521, 65038, 65033].getD (b2.headD 0) 1))
        (fun k => [k]) 5 none true 0).deleted = [4] :=
  ⟨⟨by decide, by decide, by decide, by decide, by decide⟩,
    (C2_hamming_duplicate_stops
      (fun b2 => some ([1, 65521, 65038, 65033].getD (b2.headD 0) 1)) (fun k => [k])
      5 0 1 65521 65038 65033 (by decide) (by decide) (by decide) (by decide)
      (by decide) (by decide) (by decide) (by decide) (by decide) (by decide)
      (by decide) (by decide) (by decide) (by decide) (by decide) (by decide)).1,
    (C2_hamming_duplicate_stops
      (fun b2 => some ([1, 65521, 65038, 65033].getD (b2.headD 0) 1)) (fun k => [k])
      5 0 1 65521 65038 65033 (by decide) (by decide) (by decide) (by decide)
      (by decide) (by decide) (by decide) (by decide) (by decide) (by decide)
      (by decide) (by decide) (by decide) (by decide) (by decide) (by decide)).2.2.1⟩

/-- C7: for an in-range candidate index, an exception during the click attempt
is caught: a failure record carrying the index, marker id, coordinates and the
error string is appended, the clicked log is untouched, and current_index
advances by exactly 1 - the same advance as on the success path - so every
clicking step with current_index < length advances the index by exactly 1,
while an out-of-range index leaves the index unchanged with step all_clicked. -/
theorem C7_failure_advances_index :
    (∀ (s : ClickNodeState) (e : String), s.current_index < s.coordinates.length →
      (click_coordinate_node s (.err e)).failures =
        s.failures ++ [mkFailureRec s.current_index
          (s.coordinates.getD s.current_index defaultCandidate) e] ∧
      (click_coordinate_node s (.err e)).clicked = s.clicked ∧
      (click_coordinate_node s (.err e)).step = "click_failed" ∧
      (click_coordinate_node s (.err e)).current_index = s.current_index + 1) ∧
    (∀ (s : ClickNodeState) (attempt : ClickAttempt),
      s.current_index < s.coordinates.length →
      (click_coordinate_node s attempt).current_index = s.current_index + 1) ∧
    (∀ (s : ClickNodeState) (attempt : ClickAttempt),
      s.coordinates.length ≤ s.current_index →
      (click_coordinate_node s attempt).current_index = s.current_index ∧
      (click_coordinate_node s attempt).step = "all_clicked") := by
  refine ⟨?_, ?_, ?_⟩
  · intro s e h
    unfold click_coordinate_node
    rw [if_neg (by omega)]
    exact ⟨rfl, rfl, rfl, rfl⟩
  · intro s attempt h
    unfold click_coordinate_node
    rw [if_neg (by omega)]
    cases attempt
    · rfl
    · rfl
  · intro s attempt h
    unfold click_coordinate_node
    rw [if_pos h]
    exact ⟨rfl, rfl⟩

/-- Witness for C7 on a concrete one-candidate state with a failing click. -/
theorem C7_witness :
    (0 : Nat) < 1 ∧
      (click_coordinate_node
        ⟨[⟨"5", 100, 200, "n1", "t1", true⟩], 0, [], [], "elements_collected", false⟩
        (.err "boom")).current_index = 0 + 1 := by
  refine ⟨by decide, ?_⟩
  have h := C7_failure_advances_index.2.1
    ⟨[⟨"5", 100, 200, "n1", "t1", true⟩], 0, [], [], "elements_collected", false⟩
    (.err "boom") (by decide)
  exact h

/-- C8 (amended): the search-flow detector _verify_detail_page_entry is
polling-based with an explicit deadline - it rechecks the URL and the detail
selectors each iteration and sleeps 300 ms between iterations up to the
8000 ms default deadline - and fails closed with entered = false on timeout;
the click-graph/carousel path instead uses the single-shot
_verify_detail_entry, which also fails closed but performs no polling, so the
two flows do not use one identical polling detector. -/
theorem C8_polling_detector_fails_closed :
    (∀ (obs : Nat → DetailObs) (fuel : Nat),
      (∀ j, j < fuel → (obs j).urlHasDetail = false ∧ (obs j).urlHasSearch = false ∧
        (obs j).selVisible = false) →
      verify_detail_page_entry obs fuel =
        ⟨false, "detail markers not found (timeout)"⟩) ∧
    (∀ (beforeUrlGiven : Bool) (o : ClickDetailObs),
      o.urlHasDetail = false → o.selVisible = false →
      verify_detail_entry beforeUrlGiven o = ⟨false, "not_detected"⟩) ∧
    (VERIFY_POLL_INTERVAL_MS = 300 ∧ VERIFY_DETAIL_TIMEOUT_MS = 8000) := by
  refine ⟨?_, ?_, rfl, rfl⟩
  · intro obs fuel h
    exact verifyPollLoop_timeout obs fuel 0 (fun j hj1 hj2 => h j (by omega))
  · intro bg o h1 h2
    unfold verify_detail_entry
    rw [if_neg (by simp [h1]), if_neg (by simp [h2])]

/-- C8 counterexample: on the same environment - nothing visible at the first
observation, a detail selector visible from the second observation on - the
polling detector reports entered = true while the single-shot click-graph
detector (which sees only the first observation) reports entered = false: the
two detectors are not used identically. -/
theorem C8_counterexample :
    (verify_detail_page_entry
      (fun i => if i = 0 then ⟨false, false, false⟩ else ⟨false, false, true⟩)
      2).entered = true ∧
    (verify_detail_entry true ⟨false, false, false⟩).entered = false := by
  exact ⟨rfl, rfl⟩

/-- Witness for C8 on a concrete trace with no detection in 3 iterations. -/
theorem C8_witness :
    (∀ j, j < 3 → ((fun _ : Nat => (⟨false, false, false⟩ : DetailObs)) j).urlHasDetail = false ∧
      ((fun _ : Nat => (⟨false, false, false⟩ : DetailObs)) j).urlHasSearch = false ∧
      ((fun _ : Nat => (⟨false, false, false⟩ : DetailObs)) j).selVisible = false) ∧
    verify_detail_page_entry (fun _ => ⟨false, false, false⟩) 3 =
      ⟨false, "detail markers not found (timeout)"⟩ :=
  ⟨by decide,
    C8_polling_detector_fails_closed.1 (fun _ => ⟨false, false, false⟩) 3 (by decide)⟩

/-- C5 (amended): for every (x, y) outside the closed viewport box
[0, width] x [0, height] the verifier rejects: is_valid = false, the returned
coordinates equal the input coordinates, and the reason string is
"coordinate outside viewport" (the claim quoted it as "outside viewport"). -/
theorem C5_outside_viewport_rejected :
    ∀ (vp : Viewport) (hit : Bool) (rects : List Rect) (bbox : Option BBox) (x y : Int),
      is_in_viewport x y vp = false →
      validate vp hit rects bbox x y = ⟨false, x, y, "coordinate outside viewport"⟩ := by
  intro vp hit rects bbox x y h
  unfold validate
  rw [if_pos (by rw [h]; exact Bool.false_ne_true)]

/-- C5 counterexample: at (1300, 400), outside a 1280 x 800 viewport, the code
rejects with the reason string "coordinate outside viewport", which is not the
string "outside viewport" stated by the claim. -/
theorem C5_counterexample :
    validate ⟨1280, 800⟩ false [] none 1300 400 =
      ⟨false, 1300, 400, "coordinate outside viewport"⟩ ∧
    (validate ⟨1280, 800⟩ false [] none 1300 400).reason ≠ "outside viewport" := by
  with_unfolding_all decide

/-- Witness for C5 at (-5, 10) with a 1280 x 800 viewport. -/
theorem C5_witness :
    is_in_viewport (-5) 10 ⟨1280, 800⟩ = false ∧
      validate ⟨1280, 800⟩ true [] none (-5) 10 =
        ⟨false, -5, 10, "coordinate outside viewport"⟩ :=
  ⟨by decide, C5_outside_viewport_rejected ⟨1280, 800⟩ true [] none (-5) 10 (by decide)⟩

theorem pyInt_center_between (lo w : ℚ) (hlo : lo.den = 1) (hw : w.den = 1)
    (hwnn : 0 ≤ w) :
    lo ≤ (pyInt (lo + w / 2) : ℚ) ∧ (pyInt (lo + w / 2) : ℚ) ≤ lo + w := by
  have hl : ((lo.num : Int) : ℚ) = lo := (Rat.den_eq_one_iff lo).mp hlo
  have hwq : ((w.num : Int) : ℚ) = w := (Rat.den_eq_one_iff w).mp hw
  have h1 : ((lo.num : Int) : ℚ) ≤ lo + w / 2 := by rw [hl]; linarith
  have h2 : lo + w / 2 ≤ ((lo.num + w.num : Int) : ℚ) := by
    push_cast
    rw [hl, hwq]
    linarith
  obtain ⟨b1, b2⟩ := pyInt_bounds lo.num (lo.num + w.num) (lo + w / 2) h1 h2
  constructor
  · calc lo = ((lo.num : Int) : ℚ) := hl.symm
      _ ≤ (pyInt (lo + w / 2) : ℚ) := b1
  · calc (pyInt (lo + w / 2) : ℚ) ≤ ((lo.num + w.num : Int) : ℚ) := b2
      _ = lo + w := by push_cast; rw [hl, hwq]

/-- C4 (amended): for every point inside the viewport lying strictly inside
some card rectangle, validate returns is_valid = true with a click point lying
inside a card rectangle that contains the point, provided the card rectangles
have integral coordinates; with fractional rectangle bounds the returned point
(the int-truncated rectangle center) can land outside the rectangle (see the
counterexample).  The concrete spec scenario holds: candidate (300, 450) with
no direct hit and card rectangle x 200, y 350, w 200, h 250 yields
is_valid = true snapped to the rectangle center (300, 475). -/
theorem C4_inside_rect_click_valid :
    (∀ (vp : Viewport) (hit : Bool) (rects : List Rect) (bbox : Option BBox)
        (x y : Int) (r : Rect),
      is_in_viewport x y vp = true → r ∈ rects → rectStrictlyContainsPt r x y →
      (∀ r2 ∈ rects, rectIntegral r2) →
      (validate vp hit rects bbox x y).is_valid = true ∧
      ∃ r2 ∈ rects, rectContainsPt r2 x y ∧
        rectContainsPt r2 (validate vp hit rects bbox x y).click_x
          (validate vp hit rects bbox x y).click_y) ∧
    validate ⟨1280, 800⟩ false [⟨200, 350, 200, 250⟩] none 300 450 =
      ⟨true, 300, 475, "within note card bounding box"⟩ := by
  constructor
  · intro vp hit rects bbox x y r hvp hmem hstrict hint
    obtain ⟨hsx1, hsx2, hsy1, hsy2⟩ := hstrict
    unfold validate
    rw [if_neg (by rw [hvp]; exact not_not_intro rfl)]
    by_cases hhit : hit = true
    · rw [if_pos hhit]
      exact ⟨rfl, r, hmem,
        ⟨le_of_lt hsx1, le_of_lt hsx2, le_of_lt hsy1, le_of_lt hsy2⟩,
        ⟨le_of_lt hsx1, le_of_lt hsx2, le_of_lt hsy1, le_of_lt hsy2⟩⟩
    · rw [if_neg hhit]
      have hsome : ((collect_note_rects rects x y).find? (fun r2 => r2.contains)).isSome = true := by
        apply List.find?_isSome.mpr
        refine ⟨mkNoteRect r x y, ?_, ?_⟩
        · exact List.mem_map.mpr ⟨r, hmem, rfl⟩
        · exact decide_eq_true
            ⟨le_of_lt hsx1, le_of_lt hsx2, le_of_lt hsy1, le_of_lt hsy2⟩
      obtain ⟨c, hc⟩ := Option.isSome_iff_exists.mp hsome
      rw [hc]
      have hcmem := List.mem_of_find?_eq_some hc
      have hccont := List.find?_some hc
      obtain ⟨rc, hrcmem, hrceq⟩ := List.mem_map.mp hcmem
      subst hrceq
      have hcont : rectContainsPt rc x y := of_decide_eq_true hccont
      obtain ⟨hc1, hc2, hc3, hc4⟩ := hcont
      have hwnn : 0 ≤ rc.width := by
        have := le_trans hc1 hc2
        linarith
      have hhnn : 0 ≤ rc.height := by
        have := le_trans hc3 hc4
        linarith
      obtain ⟨hix, hiy, hiw, hih⟩ := hint rc hrcmem
      have hbx := pyInt_center_between rc.x rc.width hix hiw hwnn
      have hby := pyInt_center_between rc.y rc.height hiy hih hhnn
      refine ⟨rfl, rc, hrcmem, ⟨hc1, hc2, hc3, hc4⟩, ?_⟩
      exact ⟨hbx.1, hbx.2, hby.1, hby.2⟩
  · with_unfolding_all decide

/-- C4 counterexample: the integer point (3, 3) lies strictly inside the
fractional card rectangle at (5/2, 5/2) with width and height 4/5 and is
inside the viewport, yet validate snaps to the truncated center (2, 2), which
lies outside that rectangle - so the claim as stated fails on the code. -/
theorem C4_counterexample :
    rectStrictlyContainsPt ⟨5 / 2, 5 / 2, 4 / 5, 4 / 5⟩ 3 3 ∧
    is_in_viewport 3 3 ⟨100, 100⟩ = true ∧
    validate ⟨100, 100⟩ false [⟨5 / 2, 5 / 2, 4 / 5, 4 / 5⟩] none 3 3 =
      ⟨true, 2, 2, "within note card bounding box"⟩ ∧
    ¬ rectContainsPt ⟨5 / 2, 5 / 2, 4 / 5, 4 / 5⟩ 2 2 := by
  with_unfolding_all decide

/-- Witness for C4 at the spec scenario input. -/
theorem C4_witness :
    (is_in_viewport 300 450 ⟨1280, 800⟩ = true ∧
      (⟨200, 350, 200, 250⟩ : Rect) ∈ [(⟨200, 350, 200, 250⟩ : Rect)] ∧
      rectStrictlyContainsPt ⟨200, 350, 200, 250⟩ 300 450 ∧
      (∀ r2 ∈ [(⟨200, 350, 200, 250⟩ : Rect)], rectIntegral r2)) ∧
    (validate ⟨1280, 800⟩ false [⟨200, 350, 200, 250⟩] none 300 450).is_valid = true ∧
    ∃ r2 ∈ [(⟨200, 350, 200, 250⟩ : Rect)], rectContainsPt r2 300 450 ∧
      rectContainsPt r2
        (validate ⟨1280, 800⟩ false [⟨200, 350, 200, 250⟩] none 300 450).click_x
        (validate ⟨1280, 800⟩ false [⟨200, 350, 200, 250⟩] none 300 450).click_y :=
  ⟨⟨by decide, by with_unfolding_all decide, by with_unfolding_all decide,
      by with_unfolding_all decide⟩,
    C4_inside_rect_click_valid.1 ⟨1280, 800⟩ false [⟨200, 350, 200, 250⟩] none 300 450
      ⟨200, 350, 200, 250⟩ (by decide) (by with_unfolding_all decide)
      (by with_unfolding_all decide) (by with_unfolding_all decide)⟩

/-- C6: when the viewport check passes, the direct hit misses, no card
rectangle contains the point and the hint bounding box test fails, validate
returns is_valid = false carrying as suggestion the int-truncated center of a
card whose center has minimal (squared) Euclidean distance to the input point
whenever at least one card exists; and when no card elements exist it returns
is_valid = false with the original point and reason
"no note card found near coordinate". -/
theorem C6_nearest_and_empty_fallbacks :
    ∀ (vp : Viewport) (rects : List Rect) (bbox : Option BBox) (x y : Int),
      is_in_viewport x y vp = true →
      (∀ r ∈ rects, ¬ rectContainsPt r x y) →
      bboxHit bbox x y = false →
      (rects ≠ [] → ∃ rc ∈ rects,
        validate vp false rects bbox x y =
          ⟨false, pyInt (rc.x + rc.width / 2), pyInt (rc.y + rc.height / 2),
            "no direct hit; suggesting nearest note card center"⟩ ∧
        ∀ rc2 ∈ rects,
          distSq (rc.x + rc.width / 2) (rc.y + rc.height / 2) x y ≤
            distSq (rc2.x + rc2.width / 2) (rc2.y + rc2.height / 2) x y) ∧
      (rects = [] → validate vp false rects bbox x y =
        ⟨false, x, y, "no note card found near coordinate"⟩) := by
  intro vp rects bbox x y hvp hnone hbb
  have hfind : (collect_note_rects rects x y).find? (fun r2 => r2.contains) = none := by
    apply List.find?_eq_none.mpr
    intro c hcmem hccont
    obtain ⟨rc, hrcmem, hrceq⟩ := List.mem_map.mp hcmem
    subst hrceq
    exact hnone rc hrcmem (of_decide_eq_true hccont)
  constructor
  · intro hne
    cases rects with
    | nil => exact absurd rfl hne
    | cons rc0 rest =>
      obtain ⟨m, hm, hmmem, hmin⟩ :=
        find_nearest_spec x y (mkNoteRect rc0 x y)
          (rest.map fun r2 => mkNoteRect r2 x y)
      have hmmem2 : m ∈ collect_note_rects (rc0 :: rest) x y := by
        simpa [collect_note_rects] using hmmem
      obtain ⟨rc, hrcmem, hrceq⟩ := List.mem_map.mp hmmem2
      refine ⟨rc, hrcmem, ?_, ?_⟩
      · unfold validate
        rw [if_neg (by rw [hvp]; exact not_not_intro rfl)]
        rw [if_neg Bool.false_ne_true]
        rw [hfind]
        rw [if_neg (by rw [hbb]; exact Bool.false_ne_true)]
        have hfn : find_nearest (collect_note_rects (rc0 :: rest) x y) x y = some m := by
          simpa [collect_note_rects] using hm
        rw [hfn, ← hrceq]
        rfl
      · intro rc2 hrc2
        have hin : mkNoteRect rc2 x y ∈
            mkNoteRect rc0 x y :: (rest.map fun r2 => mkNoteRect r2 x y) := by
          have : mkNoteRect rc2 x y ∈ collect_note_rects (rc0 :: rest) x y :=
            List.mem_map.mpr ⟨rc2, hrc2, rfl⟩
          simpa [collect_note_rects] using this
        have hmle := hmin (mkNoteRect rc2 x y) hin
        rw [← hrceq] at hmle
        simpa [mkNoteRect] using hmle
  · intro hnil
    subst hnil
    unfold validate
    rw [if_neg (by rw [hvp]; exact not_not_intro rfl)]
    rw [if_neg Bool.false_ne_true]
    rw [show (collect_note_rects [] x y).find? (fun r2 => r2.contains) = none from rfl]
    rw [if_neg (by rw [hbb]; exact Bool.false_ne_true)]
    rfl

/-- Witness for C6 with two cards, neither containing the point (100, 100). -/
theorem C6_witness :
    (is_in_viewport 100 100 ⟨1280, 800⟩ = true ∧
      (∀ r ∈ [(⟨10, 10, 5, 5⟩ : Rect), ⟨0, 0, 2, 2⟩], ¬ rectContainsPt r 100 100) ∧
      bboxHit none 100 100 = false ∧
      ([(⟨10, 10, 5, 5⟩ : Rect), ⟨0, 0, 2, 2⟩] ≠ [])) ∧
    ∃ rc ∈ [(⟨10, 10, 5, 5⟩ : Rect), ⟨0, 0, 2, 2⟩],
      validate ⟨1280, 800⟩ false [⟨10, 10, 5, 5⟩, ⟨0, 0, 2, 2⟩] none 100 100 =
        ⟨false, pyInt (rc.x + rc.width / 2), pyInt (rc.y + rc.height / 2),
          "no direct hit; suggesting nearest note card center"⟩ ∧
      ∀ rc2 ∈ [(⟨10, 10, 5, 5⟩ : Rect), ⟨0, 0, 2, 2⟩],
        distSq (rc.x + rc.width / 2) (rc.y + rc.height / 2) 100 100 ≤
          distSq (rc2.x + rc2.width / 2) (rc2.y + rc2.height / 2) 100 100 :=
  ⟨⟨by decide, by with_unfolding_all decide, by decide, by decide⟩,
    (C6_nearest_and_empty_fallbacks ⟨1280, 800⟩ [⟨10, 10, 5, 5⟩, ⟨0, 0, 2, 2⟩] none
      100 100 (by decide) (by with_unfolding_all decide) (by decide)).1
      (by decide)⟩
